import Mathlib

/-!
Verification model of `http-delayed-response` (extrabacon/http-delayed-response).

The repository ships two historical revisions of its single module `index.js`.
The later revision (the one exercised by the test suite: it defines `wait`,
`start(interval, initialDelay, timeout)`, a `TimeoutError`, the "cancel" event,
a `timers` record with the three timer kinds `timeout` / `initialDelay` / `poll`,
and a double-invocation warning in `end`) is the revision modelled here; each
definition below carries a reference to the corresponding source function.

Modelling conventions:
* JavaScript values reaching `DelayedResponse.prototype.end` as its `err`
  argument are classified by exactly the shape tests the source performs
  (`err &&`, `'then' in err`, `typeof err.then === 'function'`,
  `err instanceof TimeoutError`); see `ErrArg`.
* The `data` argument is classified by the shape tests of the default renderer
  (`typeof data === 'undefined' || data === null`, `instanceof stream.Readable`,
  `typeof data === 'string' || Buffer.isBuffer(data)`); see `DataArg`.
* The event loop is a small-step system: `Trigger` enumerates the asynchronous
  triggers (timer fires, promise settlement, request close, response
  close/finish, stream completion) together with the synchronous user calls,
  and `stepF` executes one trigger.  A timer that has been cleared simply has
  its slot set to `none`, so its fire trigger is a no-op — exactly the
  observable semantics of `clearTimeout` / `clearInterval`.
* `console.warn` is modelled by a warning counter, `next(err)` by a list of
  values passed to the continuation, and an exception thrown from inside an
  asynchronous callback (timer or promise handler) by a list of uncaught
  faults.
-/

/-- Classification of the JavaScript value passed as `err` to `end`, following
the shape tests in the source: `noErr` is any falsy value (`null`, `undefined`,
`0`, `''`, `false`); `primTruthy` is any truthy primitive (non-object,
non-function: a non-empty string, non-zero number, `true`, …), for which
`'then' in err` itself throws a `TypeError`; `errObj` is an object without a
`then` member, with `isTimeout` recording whether it is an instance of the
module's private `TimeoutError` constructor (only the timeout timers create
such instances — the constructor is not exported); `thenable` is an object with
a callable `then` member (`pid` identifies the promise); `thenNotCallable` is
an object whose `then` member is not a function. -/
inductive ErrArg where
  | noErr
  | primTruthy
  | errObj (isTimeout : Bool) (tag : Nat)
  | thenable (pid : Nat)
  | thenNotCallable (tag : Nat)
deriving DecidableEq, Repr

/-- JavaScript values that reach the `JSON.stringify` branch of the default
renderer: not `undefined`/`null`, not a string, not a `Buffer`, not a readable
stream — i.e. booleans, numbers, arrays and plain objects. -/
inductive OVal where
  | obool (b : Bool)
  | onum (n : Int)
  | ostr (t : String)
  | oarr (elems : List OVal)
  | oobj (fields : List (String × OVal))

/-- Escaping performed by `JSON.stringify` on the characters the model can
contain (quote and backslash). -/
def jsonEscape (t : String) : String :=
  t.foldl (fun acc c =>
    if c = '"' then acc ++ "\\\""
    else if c = '\\' then acc ++ "\\\\"
    else acc.push c) ""

mutual

/-- The text `JSON.stringify` produces for an `OVal`. -/
def ovalStringify : OVal → String
  | .obool true => "true"
  | .obool false => "false"
  | .onum n => toString n
  | .ostr t => "\"" ++ jsonEscape t ++ "\""
  | .oarr es => "[" ++ ovalStringifyList es ++ "]"
  | .oobj fs => "\x7b" ++ ovalStringifyFields fs ++ "\x7d"

/-- Comma-separated serialization of an array's elements. -/
def ovalStringifyList : List OVal → String
  | [] => ""
  | [v] => ovalStringify v
  | v :: rest => ovalStringify v ++ "," ++ ovalStringifyList rest

/-- Comma-separated serialization of an object's key/value pairs. -/
def ovalStringifyFields : List (String × OVal) → String
  | [] => ""
  | [(k, v)] => "\"" ++ jsonEscape k ++ "\":" ++ ovalStringify v
  | (k, v) :: rest =>
      "\"" ++ jsonEscape k ++ "\":" ++ ovalStringify v ++ "," ++ ovalStringifyFields rest

end

/-- Classification of the `data` argument of `end`, following the shape tests
of the default renderer in the source: `undef` covers both `undefined` and
`null`; `readable` is a `stream.Readable` (identified by `sid`); `str` a
string; `buf` a `Buffer` (its bytes); `other` anything else. -/
inductive DataArg where
  | undef
  | str (s : String)
  | buf (b : List Nat)
  | readable (sid : Nat)
  | other (v : OVal)

/-- A chunk written to the HTTP response body. -/
inductive Chunk where
  | str (s : String)
  | buf (b : List Nat)
deriving DecidableEq, Repr

/-- Model of the `http.ServerResponse` sink: status code, content type header,
the ordered body chunks, whether `res.end` has been called, the stream piped
into it (if any), the socket's `noDelay` flag, and a counter of writes
attempted after the response had already ended. -/
structure Res where
  statusCode : Nat := 200
  contentType : Option String := none
  body : List Chunk := []
  ended : Bool := false
  pipedFrom : Option Nat := none
  noDelay : Bool := false
  writeAfterEnd : Nat := 0
deriving DecidableEq, Repr

/-- Model of `res.write(chunk)`. -/
def resWrite (r : Res) (c : Chunk) : Res :=
  if r.ended then { r with writeAfterEnd := r.writeAfterEnd + 1 }
  else { r with body := r.body ++ [c] }

/-- Model of `res.end()` / `res.end(chunk)`: appends the final chunk (if any)
and marks the response ended; a second `end` on the response is a no-op here. -/
def resEndF (r : Res) (c : Option Chunk) : Res :=
  if r.ended then r
  else
    match c with
    | none => { r with ended := true }
    | some ch => { r with body := r.body ++ [ch], ended := true }

/-- Registered listener counts (`this.listeners(name).length`) for the events
whose presence the source branches on. -/
structure Listeners where
  heartbeatL : Nat := 0
  errorL : Nat := 0
  cancelL : Nat := 0
  doneL : Nat := 0
  abortL : Nat := 0
deriving DecidableEq, Repr

/-- Events emitted by the controller, in emission order. -/
inductive Ev where
  | poll
  | heartbeat
  | cancel
  | errorEv (e : ErrArg)
  | doneEv (d : DataArg)
  | abortEv

/-- Which startup call armed the idle-timeout timer: the handler installed by
`wait` first sets the response status to 202, the one installed by `start`
does not (the status is already 202 there). -/
inductive TimeoutKind where
  | fromWait
  | fromStart
deriving DecidableEq, Repr

/-- State of one `DelayedResponse` controller instance.  `tTimeout`,
`tInitialDelay` and `tPoll` are the `this.timers.timeout`, `.initialDelay` and
`.poll` slots (`none` = cleared / never armed); `tInitialDelay` stores the
heartbeat interval it will arm together with the configured initial delay.
`subs` holds the promises whose settlement `end` has subscribed to,
`nextCalls` the arguments passed to the `next` continuation, `warnings` the
number of `console.warn` double-invocation diagnostics, and `faults` the
errors thrown out of asynchronous callbacks (uncaught). -/
structure DR where
  started : Bool := false
  ended : Bool := false
  tTimeout : Option TimeoutKind := none
  tInitialDelay : Option (Nat × Nat) := none
  tPoll : Option Nat := none
  hasNext : Bool := false
  ls : Listeners := {}
  res : Res := {}
  subs : List Nat := []
  events : List Ev := []
  warnings : Nat := 0
  nextCalls : List ErrArg := []
  faults : List ErrArg := []

/-- Result of a call to `wait` or `start`. -/
inductive CallResult where
  | handle
  | threwAlreadyStarted
deriving DecidableEq, Repr

/-- Result of a call to `end`: normal return, the chained promise returned by
`promise.then(...)`, the warned double-invocation no-op, the `TypeError`
raised by `'then' in err` on a truthy primitive, or a thrown error. -/
inductive EndResult where
  | unit
  | chained (pid : Nat)
  | warned
  | threwTypeError
  | threw (e : ErrArg)
deriving DecidableEq, Repr

/-- Model of the constructor (after its `req`/`res` presence checks): records
the response, the registered listeners and whether a `next` continuation was
supplied; no timer is armed, nothing is started or ended, and the response is
left untouched.  The two passive wirings the constructor installs — request
`close` → abort path, response `close`/`finish` → `stop` — are modelled by the
`reqClose` and `resFinish` triggers. -/
def construct (hasNext : Bool) (ls : Listeners) (r : Res) : DR :=
  { hasNext := hasNext, ls := ls, res := r }

/-- Model of `DelayedResponse.prototype.json`: sets the Content-Type header
and returns the instance. -/
def jsonF (s : DR) : DR :=
  { s with res := { s.res with contentType := some "application/json" } }

/-- Model of `DelayedResponse.prototype.wait (timeout)`: throws if the
instance is already started; otherwise, if `timeout` is truthy (`none` models
`undefined`, and `0` is falsy), arms the idle-timeout timer whose handler sets
status 202 before finalizing with a `TimeoutError`.  Note: the source checks
`this.started` but never sets it in `wait`. -/
def waitF (s : DR) (timeout : Option Nat) : DR × CallResult :=
  if s.started then (s, .threwAlreadyStarted)
  else
    match timeout with
    | some t =>
        if t = 0 then (s, .handle)
        else ({ s with tTimeout := some .fromWait }, .handle)
    | none => (s, .handle)

/-- Model of `DelayedResponse.prototype.start (interval, initialDelay,
timeout)`: throws if already started; otherwise defaults `interval` with
`interval || 100` (so `0` becomes `100`), defaults `initialDelay` to
`interval` only when it is `undefined`, sets the response status to 202,
disables socket buffering (`setNoDelay()`), arms the initial-delay timer
(which on firing will arm the heartbeat interval), marks the instance
started, and arms the idle-timeout timer if `timeout` is truthy. -/
def startF (s : DR) (interval initialDelay timeout : Option Nat) : DR × CallResult :=
  if s.started then (s, .threwAlreadyStarted)
  else
    let i := match interval with
      | none => 100
      | some n => if n = 0 then 100 else n
    let di := match initialDelay with
      | none => i
      | some d2 => d2
    let s1 := { s with
      res := { s.res with statusCode := 202, noDelay := true },
      tInitialDelay := some (i, di),
      started := true }
    let s2 := match timeout with
      | some t => if t = 0 then s1 else { s1 with tTimeout := some .fromStart }
      | none => s1
    (s2, .handle)

/-- Model of `DelayedResponse.prototype.stop`: clears the three timer slots
(`clearTimeout`/`clearInterval` and nulling); it touches nothing else — in
this revision `stop` does not write to or end the response and does not change
socket buffering. -/
def stopF (s : DR) : DR :=
  { s with tTimeout := none, tInitialDelay := none, tPoll := none }

/-- Model of the private `heartbeat` tick handler: always emits "poll"; then,
if a "heartbeat" listener is attached, emits "heartbeat", otherwise writes the
single space heartbeat character to the response. -/
def heartbeatF (s : DR) : DR :=
  let s1 := { s with events := s.events ++ [Ev.poll] }
  if 0 < s1.ls.heartbeatL then { s1 with events := s1.events ++ [Ev.heartbeat] }
  else { s1 with res := resWrite s1.res (.str " ") }

/-- Model of the private `abort` handler (request `close`): calls `stop`
unconditionally; then either emits "abort" (if a listener is attached) and
returns without touching the response, or ends the response with no body. -/
def abortF (s : DR) : DR :=
  let s1 := stopF s
  if 0 < s1.ls.abortL then { s1 with events := s1.events ++ [Ev.abortEv] }
  else { s1 with res := resEndF s1.res none }

/-- The state mutation shared by every first finalization in `end`: set
`this.ended = true` and restore socket buffering (`setNoDelay(false)`). -/
def finMark (s : DR) : DR :=
  { s with ended := true, res := { s.res with noDelay := false } }

/-- The error tiers of `end` (source: `if (err) { ... }`): "cancel" for a
`TimeoutError` with a "cancel" listener, else the "error" listener, else the
`next` continuation, else `throw err`. -/
def handleErr (s : DR) (e : ErrArg) : DR × EndResult :=
  if isTimeoutErr e = true ∧ 0 < s.ls.cancelL then
    ({ s with events := s.events ++ [Ev.cancel] }, .unit)
  else if 0 < s.ls.errorL then
    ({ s with events := s.events ++ [Ev.errorEv e] }, .unit)
  else if s.hasNext then
    ({ s with nextCalls := s.nextCalls ++ [e] }, .unit)
  else (s, .threw e)
where
  /-- Whether the value satisfies `err instanceof TimeoutError`. -/
  isTimeoutErr : ErrArg → Bool
    | .errObj t _ => t
    | _ => false

/-- The success tail of `end`: if a "done" listener is attached it is in
charge of ending the response; otherwise the default renderer runs —
`undefined`/`null` ends with no body, a readable stream is piped (the response
is ended later, by stream completion), a string or buffer is written as-is and
ended, anything else is `JSON.stringify`-ed, written and ended. -/
def renderData (s : DR) (d : DataArg) : DR × EndResult :=
  if 0 < s.ls.doneL then ({ s with events := s.events ++ [Ev.doneEv d] }, .unit)
  else
    match d with
    | .undef => ({ s with res := resEndF s.res none }, .unit)
    | .readable sid => ({ s with res := { s.res with pipedFrom := some sid } }, .unit)
    | .str t => ({ s with res := resEndF s.res (some (.str t)) }, .unit)
    | .buf b => ({ s with res := resEndF s.res (some (.buf b)) }, .unit)
    | .other v => ({ s with res := resEndF s.res (some (.str (ovalStringify v))) }, .unit)

/-- The non-promise path of `end`: the double-processing guard (warn and
return if already ended), then the shared finalization mark, then the error
tiers or the success tail. -/
def endCore (s : DR) (e : ErrArg) (d : DataArg) : DR × EndResult :=
  if s.ended then ({ s with warnings := s.warnings + 1 }, .warned)
  else
    let s1 := finMark s
    match e with
    | .noErr => renderData s1 d
    | e2 => handleErr s1 e2

/-- Model of `DelayedResponse.prototype.end (err, data)`.  The promise
detection (`err && 'then' in err && typeof err.then === 'function'`) runs
before the double-processing guard: a truthy primitive makes the `in`
operator itself throw a `TypeError` (nothing else happens — the guard is
never reached); a thenable is subscribed to and the chained promise is
returned; everything else proceeds to `endCore`. -/
def endF (s : DR) (e : ErrArg) (d : DataArg) : DR × EndResult :=
  match e with
  | .primTruthy => (s, .threwTypeError)
  | .thenable pid => ({ s with subs := pid :: s.subs }, .chained pid)
  | e2 => endCore s e2 d

/-- Wraps an `end` result produced inside an asynchronous callback: a thrown
error becomes an uncaught fault of the surrounding execution context. -/
def recordFault (p : DR × EndResult) : DR :=
  match p.2 with
  | .threw e => { p.1 with faults := p.1.faults ++ [e] }
  | _ => p.1

/-- Fire of the armed idle-timeout timer: the `wait` variant first sets the
response status to 202; both variants then call
`end(new TimeoutError('timeout occurred'))`.  The slot is cleared because a
`setTimeout` fires at most once. -/
def fireTimeoutF (s : DR) : DR :=
  match s.tTimeout with
  | none => s
  | some k =>
      let s1 := { s with tTimeout := none }
      let s2 := match k with
        | .fromWait => { s1 with res := { s1.res with statusCode := 202 } }
        | .fromStart => s1
      recordFault (endF s2 (.errObj true 0) .undef)

/-- Fire of the armed initial-delay timer: arms the heartbeat interval. -/
def fireInitialDelayF (s : DR) : DR :=
  match s.tInitialDelay with
  | none => s
  | some (i, _) => { s with tInitialDelay := none, tPoll := some i }

/-- Fire of the armed heartbeat interval: runs one heartbeat tick. -/
def firePollF (s : DR) : DR :=
  match s.tPoll with
  | none => s
  | some _ => heartbeatF s

/-- Fulfillment of a promise `end` subscribed to: the handler calls
`end(null, result)`. -/
def promiseFulfilledF (s : DR) (pid : Nat) (d : DataArg) : DR :=
  if pid ∈ s.subs then (endF { s with subs := s.subs.erase pid } .noErr d).1
  else s

/-- Rejection of a promise `end` subscribed to: the handler calls `end(err)`;
an error thrown there (no handler tier applies) is an uncaught fault. -/
def promiseRejectedF (s : DR) (pid : Nat) (e : ErrArg) : DR :=
  if pid ∈ s.subs then recordFault (endF { s with subs := s.subs.erase pid } e .undef)
  else s

/-- Completion of a stream piped into the response ends the response. -/
def streamDoneF (s : DR) : DR :=
  match s.res.pipedFrom with
  | none => s
  | some _ => { s with res := resEndF s.res none }

/-- One unit of event-loop work: a synchronous user call or one of the
asynchronous triggers (timer fires, promise settlement, the request `close`
notification wired to the abort path, the response `close`/`finish`
notification wired to `stop`, completion of a piped stream). -/
inductive Trigger where
  | uWait (timeout : Option Nat)
  | uStart (interval initialDelay timeout : Option Nat)
  | uStop
  | uEnd (e : ErrArg) (d : DataArg)
  | uJson
  | fireTimeout
  | fireInitialDelay
  | firePoll
  | promiseFulfilled (pid : Nat) (d : DataArg)
  | promiseRejected (pid : Nat) (e : ErrArg)
  | reqClose
  | resFinish
  | streamDone

/-- Executes one trigger. -/
def stepF (s : DR) : Trigger → DR
  | .uWait t => (waitF s t).1
  | .uStart i d t => (startF s i d t).1
  | .uStop => stopF s
  | .uEnd e d => (endF s e d).1
  | .uJson => jsonF s
  | .fireTimeout => fireTimeoutF s
  | .fireInitialDelay => fireInitialDelayF s
  | .firePoll => firePollF s
  | .promiseFulfilled pid d => promiseFulfilledF s pid d
  | .promiseRejected pid e => promiseRejectedF s pid e
  | .reqClose => abortF s
  | .resFinish => stopF s
  | .streamDone => streamDoneF s

/-- Executes a sequence of triggers. -/
def run (s : DR) (ts : List Trigger) : DR :=
  ts.foldl stepF s

/-- Whether an event is a keep-alive dispatch ("poll" or "heartbeat"). -/
def isKeepAlive : Ev → Bool
  | .poll => true
  | .heartbeat => true
  | _ => false

/-- Number of keep-alive dispatches in an event log. -/
def pollCount (l : List Ev) : Nat :=
  l.countP isKeepAlive

/-- Arguments on which `end` executes its finalization logic: every
non-awaitable argument except the truthy primitives, whose shape check throws
a `TypeError` first. -/
def plainArg : ErrArg → Bool
  | .primTruthy => false
  | .thenable _ => false
  | _ => true

/-- A default-constructed response (status 200, empty body). -/
def res0 : Res := {}

/-- A freshly constructed controller with no listeners and no continuation. -/
def drBase : DR := construct false {} res0

lemma pollCount_append_non (l : List Ev) (e : Ev) (h : isKeepAlive e = false) :
    pollCount (l ++ [e]) = pollCount l := by
  simp [pollCount, List.countP_append, List.countP_cons, h]

lemma endCore_already (s : DR) (e : ErrArg) (d : DataArg) (h : s.ended = true) :
    endCore s e d = ({ s with warnings := s.warnings + 1 }, .warned) := by
  simp [endCore, h]

lemma endF_already (s : DR) (e : ErrArg) (d : DataArg) (h : s.ended = true)
    (hp : plainArg e = true) :
    endF s e d = ({ s with warnings := s.warnings + 1 }, .warned) := by
  cases e <;> simp [plainArg] at hp <;> simp [endF, endCore_already _ _ _ h]

lemma handleErr_frame (s : DR) (e : ErrArg) :
    (handleErr s e).1.started = s.started ∧
    (handleErr s e).1.ended = s.ended ∧
    (handleErr s e).1.tTimeout = s.tTimeout ∧
    (handleErr s e).1.tInitialDelay = s.tInitialDelay ∧
    (handleErr s e).1.tPoll = s.tPoll ∧
    (handleErr s e).1.res = s.res ∧
    (handleErr s e).1.subs = s.subs ∧
    pollCount (handleErr s e).1.events = pollCount s.events := by
  unfold handleErr
  split
  · simp [pollCount_append_non, isKeepAlive]
  · split
    · simp [pollCount_append_non, isKeepAlive]
    · split <;> simp

lemma renderData_frame (s : DR) (d : DataArg) :
    (renderData s d).1.started = s.started ∧
    (renderData s d).1.ended = s.ended ∧
    (renderData s d).1.tTimeout = s.tTimeout ∧
    (renderData s d).1.tInitialDelay = s.tInitialDelay ∧
    (renderData s d).1.tPoll = s.tPoll ∧
    (renderData s d).1.res.statusCode = s.res.statusCode ∧
    (renderData s d).1.res.noDelay = s.res.noDelay ∧
    (renderData s d).1.subs = s.subs ∧
    pollCount (renderData s d).1.events = pollCount s.events := by
  unfold renderData
  split
  · simp [pollCount_append_non, isKeepAlive]
  · split <;> simp [resEndF] <;> split <;> simp

lemma endF_frame (s : DR) (e : ErrArg) (d : DataArg) :
    (endF s e d).1.started = s.started ∧
    (endF s e d).1.tTimeout = s.tTimeout ∧
    (endF s e d).1.tInitialDelay = s.tInitialDelay ∧
    (endF s e d).1.tPoll = s.tPoll ∧
    (endF s e d).1.res.statusCode = s.res.statusCode ∧
    pollCount (endF s e d).1.events = pollCount s.events := by
  cases e <;> simp [endF, endCore]
  case noErr =>
    split
    · simp
    · obtain ⟨a1, a2, a3, a4, a5, a6, a7, a8, a9⟩ := renderData_frame (finMark s) d
      exact ⟨a1, a3, a4, a5, a6, a9⟩
  case errObj t g =>
    split
    · simp
    · obtain ⟨a1, a2, a3, a4, a5, a6, a7, a8⟩ := handleErr_frame (finMark s) (.errObj t g)
      exact ⟨a1, a3, a4, a5, (congrArg Res.statusCode a6).trans rfl, a8⟩
  case thenNotCallable g =>
    split
    · simp
    · obtain ⟨a1, a2, a3, a4, a5, a6, a7, a8⟩ := handleErr_frame (finMark s) (.thenNotCallable g)
      exact ⟨a1, a3, a4, a5, (congrArg Res.statusCode a6).trans rfl, a8⟩

/-- A controller that has been started and whose initial-delay and heartbeat
timer slots are clear.  From such a state no event-loop trigger can ever
re-arm a heartbeat source: `start` throws (already started) and only
`start` / the initial-delay fire arm heartbeat timers. -/
def Quiesced (s : DR) : Prop :=
  s.started = true ∧ s.tInitialDelay = none ∧ s.tPoll = none

lemma recordFault_frame (p : DR × EndResult) :
    (recordFault p).started = p.1.started ∧
    (recordFault p).tInitialDelay = p.1.tInitialDelay ∧
    (recordFault p).tPoll = p.1.tPoll ∧
    (recordFault p).events = p.1.events ∧
    (recordFault p).res = p.1.res ∧
    (recordFault p).tTimeout = p.1.tTimeout := by
  unfold recordFault
  split <;> simp

lemma quiesced_recordFault_endF (s : DR) (e : ErrArg) (d : DataArg) (h : Quiesced s) :
    Quiesced (recordFault (endF s e d)) ∧
    pollCount (recordFault (endF s e d)).events = pollCount s.events := by
  obtain ⟨b1, b2, b3, b4, b5, b6⟩ := endF_frame s e d
  obtain ⟨c1, c2, c3, c4, c5, c6⟩ := recordFault_frame (endF s e d)
  exact ⟨⟨c1.trans (b1.trans h.1), c2.trans (b3.trans h.2.1), c3.trans (b4.trans h.2.2)⟩,
         (congrArg pollCount c4).trans b6⟩

lemma quiesced_step (s : DR) (t : Trigger) (h : Quiesced s) :
    Quiesced (stepF s t) ∧ pollCount (stepF s t).events = pollCount s.events := by
  obtain ⟨h1, h2, h3⟩ := h
  cases t with
  | uWait tmo =>
    have e1 : waitF s tmo = (s, .threwAlreadyStarted) := by simp [waitF, h1]
    show Quiesced (waitF s tmo).1 ∧ pollCount (waitF s tmo).1.events = pollCount s.events
    rw [e1]
    exact ⟨⟨h1, h2, h3⟩, rfl⟩
  | uStart i di tmo =>
    have e1 : startF s i di tmo = (s, .threwAlreadyStarted) := by simp [startF, h1]
    show Quiesced (startF s i di tmo).1 ∧ pollCount (startF s i di tmo).1.events = pollCount s.events
    rw [e1]
    exact ⟨⟨h1, h2, h3⟩, rfl⟩
  | uStop =>
    exact ⟨⟨h1, rfl, rfl⟩, rfl⟩
  | uEnd e d =>
    obtain ⟨b1, b2, b3, b4, b5, b6⟩ := endF_frame s e d
    exact ⟨⟨b1.trans h1, b3.trans h2, b4.trans h3⟩, b6⟩
  | uJson =>
    exact ⟨⟨h1, h2, h3⟩, rfl⟩
  | fireTimeout =>
    show Quiesced (fireTimeoutF s) ∧ pollCount (fireTimeoutF s).events = pollCount s.events
    unfold fireTimeoutF
    cases hT : s.tTimeout with
    | none => exact ⟨⟨h1, h2, h3⟩, rfl⟩
    | some k =>
      cases k with
      | fromWait =>
        exact quiesced_recordFault_endF
          { s with tTimeout := none, res := { s.res with statusCode := 202 } }
          (.errObj true 0) .undef ⟨h1, h2, h3⟩
      | fromStart =>
        exact quiesced_recordFault_endF { s with tTimeout := none }
          (.errObj true 0) .undef ⟨h1, h2, h3⟩
  | fireInitialDelay =>
    show Quiesced (fireInitialDelayF s) ∧ pollCount (fireInitialDelayF s).events = pollCount s.events
    unfold fireInitialDelayF
    rw [h2]
    exact ⟨⟨h1, h2, h3⟩, rfl⟩
  | firePoll =>
    show Quiesced (firePollF s) ∧ pollCount (firePollF s).events = pollCount s.events
    unfold firePollF
    rw [h3]
    exact ⟨⟨h1, h2, h3⟩, rfl⟩
  | promiseFulfilled pid d =>
    show Quiesced (promiseFulfilledF s pid d) ∧
      pollCount (promiseFulfilledF s pid d).events = pollCount s.events
    unfold promiseFulfilledF
    split
    · obtain ⟨b1, b2, b3, b4, b5, b6⟩ := endF_frame { s with subs := s.subs.erase pid } .noErr d
      exact ⟨⟨b1.trans h1, b3.trans h2, b4.trans h3⟩, b6⟩
    · exact ⟨⟨h1, h2, h3⟩, rfl⟩
  | promiseRejected pid e =>
    show Quiesced (promiseRejectedF s pid e) ∧
      pollCount (promiseRejectedF s pid e).events = pollCount s.events
    unfold promiseRejectedF
    split
    · exact quiesced_recordFault_endF { s with subs := s.subs.erase pid } e .undef ⟨h1, h2, h3⟩
    · exact ⟨⟨h1, h2, h3⟩, rfl⟩
  | reqClose =>
    show Quiesced (abortF s) ∧ pollCount (abortF s).events = pollCount s.events
    simp only [abortF, stopF]
    split
    · exact ⟨⟨h1, rfl, rfl⟩, pollCount_append_non _ _ rfl⟩
    · exact ⟨⟨h1, rfl, rfl⟩, rfl⟩
  | resFinish =>
    exact ⟨⟨h1, rfl, rfl⟩, rfl⟩
  | streamDone =>
    show Quiesced (streamDoneF s) ∧ pollCount (streamDoneF s).events = pollCount s.events
    unfold streamDoneF
    cases s.res.pipedFrom with
    | none => exact ⟨⟨h1, h2, h3⟩, rfl⟩
    | some k => exact ⟨⟨h1, h2, h3⟩, rfl⟩

lemma quiesced_run (s : DR) (ts : List Trigger) (h : Quiesced s) :
    Quiesced (run s ts) ∧ pollCount (run s ts).events = pollCount s.events := by
  induction ts generalizing s with
  | nil => exact ⟨h, rfl⟩
  | cons t rest ih =>
    obtain ⟨q1, q2⟩ := quiesced_step s t h
    obtain ⟨r1, r2⟩ := ih (stepF s t) q1
    exact ⟨r1, r2.trans q2⟩

lemma renderData_warnings (s : DR) (d : DataArg) :
    (renderData s d).1.warnings = s.warnings := by
  unfold renderData
  split
  · rfl
  · split <;> rfl

lemma handleErr_warnings (s : DR) (e : ErrArg) :
    (handleErr s e).1.warnings = s.warnings := by
  unfold handleErr
  split
  · rfl
  · split
    · rfl
    · split <;> rfl

lemma endF_sets_ended (s : DR) (e : ErrArg) (d : DataArg) (h0 : s.ended = false)
    (h1 : plainArg e = true) : (endF s e d).1.ended = true := by
  have hne : ¬ s.ended = true := by simp [h0]
  cases e <;> simp [plainArg] at h1
  case noErr =>
    show (endCore s .noErr d).1.ended = true
    unfold endCore
    rw [if_neg hne]
    exact ((renderData_frame (finMark s) d).2.1).trans rfl
  case errObj t g =>
    show (endCore s (.errObj t g) d).1.ended = true
    unfold endCore
    rw [if_neg hne]
    exact ((handleErr_frame (finMark s) (.errObj t g)).2.1).trans rfl
  case thenNotCallable g =>
    show (endCore s (.thenNotCallable g) d).1.ended = true
    unfold endCore
    rw [if_neg hne]
    exact ((handleErr_frame (finMark s) (.thenNotCallable g)).2.1).trans rfl

lemma endF_keeps_warnings (s : DR) (e : ErrArg) (d : DataArg) (h0 : s.ended = false)
    (h1 : plainArg e = true) : (endF s e d).1.warnings = s.warnings := by
  have hne : ¬ s.ended = true := by simp [h0]
  cases e <;> simp [plainArg] at h1
  case noErr =>
    show (endCore s .noErr d).1.warnings = s.warnings
    unfold endCore
    rw [if_neg hne]
    exact renderData_warnings (finMark s) d
  case errObj t g =>
    show (endCore s (.errObj t g) d).1.warnings = s.warnings
    unfold endCore
    rw [if_neg hne]
    exact handleErr_warnings (finMark s) (.errObj t g)
  case thenNotCallable g =>
    show (endCore s (.thenNotCallable g) d).1.warnings = s.warnings
    unfold endCore
    rw [if_neg hne]
    exact handleErr_warnings (finMark s) (.thenNotCallable g)

lemma warn_fold (st : DR) (calls : List (ErrArg × DataArg)) (h : st.ended = true)
    (h2 : ∀ c ∈ calls, plainArg c.1 = true) :
    calls.foldl (fun x c => (endF x c.1 c.2).1) st
      = { st with warnings := st.warnings + calls.length } := by
  induction calls generalizing st with
  | nil => simp
  | cons c rest ih =>
    have hc : plainArg c.1 = true := h2 c (by simp)
    have hr : ∀ x ∈ rest, plainArg x.1 = true := fun x hx => h2 x (by simp [hx])
    have e1 : endF st c.1 c.2 = ({ st with warnings := st.warnings + 1 }, .warned) :=
      endF_already st c.1 c.2 h hc
    show List.foldl _ (endF st c.1 c.2).1 rest = _
    rw [e1]
    rw [ih { st with warnings := st.warnings + 1 } h hr]
    have harith : st.warnings + 1 + rest.length = st.warnings + (rest.length + 1) := by omega
    simp [harith]

/-- C1: finalization is at-most-once.  For a not-yet-finalized controller, a
first call to `end` with a non-awaitable argument (one on which `end` runs its
finalization logic, i.e. neither a thenable nor a truthy primitive) sets
`ended`, emits no double-invocation warning, and every subsequent such call —
in any number, with any such arguments, including the ones the timeout fire or
a promise settlement produce — changes nothing at all except incrementing the
`console.warn` diagnostic counter: no observer dispatch, no response write, no
field of the state is touched. -/
theorem end_at_most_once (s : DR) (e : ErrArg) (d : DataArg)
    (calls : List (ErrArg × DataArg)) (h0 : s.ended = false)
    (h1 : plainArg e = true) (h2 : ∀ c ∈ calls, plainArg c.1 = true) :
    (endF s e d).1.ended = true ∧
    (endF s e d).1.warnings = s.warnings ∧
    calls.foldl (fun x c => (endF x c.1 c.2).1) (endF s e d).1
      = { (endF s e d).1 with warnings := (endF s e d).1.warnings + calls.length } := by
  refine ⟨endF_sets_ended s e d h0 h1, endF_keeps_warnings s e d h0 h1, ?_⟩
  exact warn_fold (endF s e d).1 calls (endF_sets_ended s e d h0 h1) h2

/-- Witness for `end_at_most_once` at a concrete input: a fresh controller,
one finalizing `end(null, null)` call followed by one more call. -/
theorem end_at_most_once_witness :
    drBase.ended = false ∧ plainArg .noErr = true ∧
    (endF drBase .noErr .undef).1.ended = true := by
  refine ⟨rfl, rfl, ?_⟩
  exact (end_at_most_once drBase .noErr .undef [] rfl rfl (by simp)).1

/-- C4: `stop` cancels all three timer kinds (idle-timeout, initial-delay,
heartbeat), is idempotent, never writes to or ends the response, and from the
stopped state of a started controller no sequence of further event-loop
triggers (timer fires, promise settlements, abort, further user calls — a
second `start` throws) can ever dispatch "poll" or "heartbeat" again. -/
theorem stop_quiesces (s : DR) (h : s.started = true) :
    (stopF s).tTimeout = none ∧ (stopF s).tInitialDelay = none ∧ (stopF s).tPoll = none ∧
    stopF (stopF s) = stopF s ∧ (stopF s).res = s.res ∧
    ∀ ts : List Trigger, pollCount (run (stopF s) ts).events = pollCount (stopF s).events := by
  refine ⟨rfl, rfl, rfl, rfl, rfl, fun ts => ?_⟩
  exact (quiesced_run (stopF s) ts ⟨h, rfl, rfl⟩).2

/-- A controller started with default arguments. -/
def drStarted : DR := (startF drBase none none none).1

/-- Witness for `stop_quiesces` at a concrete input: a controller that has
been started with `start()` and then stopped. -/
theorem stop_quiesces_witness :
    drStarted.started = true ∧ (stopF drStarted).tPoll = none := by
  exact ⟨rfl, (stop_quiesces drStarted rfl).2.2.1⟩

/-- C10: a truthy primitive (non-object, non-function — e.g. a plain error
string) passed as the `err` argument of `end` makes the awaitable-detection
check (`'then' in err`) itself throw a `TypeError` before any finalization
logic runs: the state is returned completely unchanged — no error tier is
reached, nothing is dispatched or written, and the `ended` flag is not set. -/
theorem end_primitive_truthy_typeerror (s : DR) (d : DataArg) :
    endF s .primTruthy d = (s, .threwTypeError) := rfl

/-- C2 counterexample: `wait` checks the `started` flag but never sets it, so
after a first `wait(5)` a second `wait(5)` does not fail with AlreadyStarted —
it returns the callback handle again (and the first call indeed left
`started` false). -/
theorem second_wait_not_already_started_cex :
    (waitF (waitF drBase (some 5)).1 (some 5)).2 = CallResult.handle ∧
    CallResult.handle ≠ CallResult.threwAlreadyStarted ∧
    (waitF drBase (some 5)).1.started = false := by
  exact ⟨rfl, by decide, rfl⟩

/-- C2 (amended): only `start` sets the `started` flag, so the guarantee holds
for instances on which `start` has been invoked: any second invocation of
`wait` or `start` then fails immediately with the AlreadyStarted error and
returns the state completely unchanged — no timer, status, buffering or
response change. -/
theorem started_second_call_fails (s : DR) (h : s.started = true) :
    (∀ tmo, waitF s tmo = (s, .threwAlreadyStarted)) ∧
    (∀ i di tmo, startF s i di tmo = (s, .threwAlreadyStarted)) := by
  constructor
  · intro tmo
    simp [waitF, h]
  · intro i di tmo
    simp [startF, h]

/-- Witness for `started_second_call_fails` at a concrete input: a controller
started with `start()`. -/
theorem started_second_call_fails_witness :
    drStarted.started = true ∧
    startF drStarted none none none = (drStarted, .threwAlreadyStarted) := by
  exact ⟨rfl, (started_second_call_fails drStarted rfl).2 none none none⟩

lemma endErrTiersAux (s : DR) (t : Bool) (g : Nat) (d : DataArg) (h0 : s.ended = false) :
    (t = true → 0 < s.ls.cancelL →
      endF s (.errObj t g) d = ({ finMark s with events := s.events ++ [Ev.cancel] }, .unit)) ∧
    (¬(t = true ∧ 0 < s.ls.cancelL) → 0 < s.ls.errorL →
      endF s (.errObj t g) d
        = ({ finMark s with events := s.events ++ [Ev.errorEv (.errObj t g)] }, .unit)) ∧
    (¬(t = true ∧ 0 < s.ls.cancelL) → s.ls.errorL = 0 → s.hasNext = true →
      endF s (.errObj t g) d
        = ({ finMark s with nextCalls := s.nextCalls ++ [ErrArg.errObj t g] }, .unit)) ∧
    (¬(t = true ∧ 0 < s.ls.cancelL) → s.ls.errorL = 0 → s.hasNext = false →
      endF s (.errObj t g) d = (finMark s, .threw (.errObj t g))) := by
  have hne : ¬ s.ended = true := by simp [h0]
  refine ⟨?_, ?_, ?_, ?_⟩
  · intro ht hc
    subst ht
    show endCore s (.errObj true g) d = _
    unfold endCore
    rw [if_neg hne]
    show handleErr (finMark s) (.errObj true g) = _
    unfold handleErr
    rw [if_pos ⟨rfl, hc⟩]
    rfl
  · intro hnc he
    show endCore s (.errObj t g) d = _
    unfold endCore
    rw [if_neg hne]
    show handleErr (finMark s) (.errObj t g) = _
    unfold handleErr
    rw [if_neg (fun hb => hnc ⟨hb.1, hb.2⟩),
        if_pos (show 0 < (finMark s).ls.errorL from he)]
    rfl
  · intro hnc he hn
    show endCore s (.errObj t g) d = _
    unfold endCore
    rw [if_neg hne]
    show handleErr (finMark s) (.errObj t g) = _
    unfold handleErr
    rw [if_neg (fun hb => hnc ⟨hb.1, hb.2⟩),
        if_neg (show ¬ 0 < (finMark s).ls.errorL by simp [finMark, he]),
        if_pos (show (finMark s).hasNext = true from hn)]
    rfl
  · intro hnc he hn
    show endCore s (.errObj t g) d = _
    unfold endCore
    rw [if_neg hne]
    show handleErr (finMark s) (.errObj t g) = _
    unfold handleErr
    rw [if_neg (fun hb => hnc ⟨hb.1, hb.2⟩),
        if_neg (show ¬ 0 < (finMark s).ls.errorL by simp [finMark, he]),
        if_neg (show ¬ (finMark s).hasNext = true by simp [finMark, hn])]

/-- C5: the error tiers of first finalization.  For an error object `err`
(with `t` recording whether it is a `TimeoutError` originating from the
idle-timeout — the constructor is private, so only the timeout timers produce
`t = true`): a timeout error with a "cancel" observer fires exactly "cancel"
with no payload (the event log gains only `cancel` — "error" never fires);
otherwise with an "error" observer, "error" fires with exactly `err`;
otherwise with an error continuation, the continuation receives `err`;
otherwise `err` is thrown into the surrounding execution context. -/
theorem end_error_tiers (s : DR) (t : Bool) (g : Nat) (d : DataArg) (h0 : s.ended = false) :
    (t = true → 0 < s.ls.cancelL →
      endF s (.errObj t g) d = ({ finMark s with events := s.events ++ [Ev.cancel] }, .unit)) ∧
    (¬(t = true ∧ 0 < s.ls.cancelL) → 0 < s.ls.errorL →
      endF s (.errObj t g) d
        = ({ finMark s with events := s.events ++ [Ev.errorEv (.errObj t g)] }, .unit)) ∧
    (¬(t = true ∧ 0 < s.ls.cancelL) → s.ls.errorL = 0 → s.hasNext = true →
      endF s (.errObj t g) d
        = ({ finMark s with nextCalls := s.nextCalls ++ [ErrArg.errObj t g] }, .unit)) ∧
    (¬(t = true ∧ 0 < s.ls.cancelL) → s.ls.errorL = 0 → s.hasNext = false →
      endF s (.errObj t g) d = (finMark s, .threw (.errObj t g))) :=
  endErrTiersAux s t g d h0

/-- A controller whose only listener is one "cancel" observer. -/
def drCancel : DR := construct false { cancelL := 1 } res0

/-- Witness for `end_error_tiers` at a concrete input: a `TimeoutError` with a
"cancel" observer registered fires exactly "cancel". -/
theorem end_error_tiers_witness :
    drCancel.ended = false ∧
    endF drCancel (.errObj true 0) .undef
      = ({ finMark drCancel with events := drCancel.events ++ [Ev.cancel] }, .unit) := by
  exact ⟨rfl, (end_error_tiers drCancel true 0 .undef rfl).1 rfl (by decide)⟩

/-- C6: an object with a callable `then` member passed as `err` is treated as
an awaitable, not an error: `end` subscribes to its settlement and returns the
chaining handle with no finalization (nothing else in the state changes);
fulfillment re-enters `end(null, value)`; a rejection with error `E` on a
not-yet-finalized controller with no "error" observer and no error
continuation finalizes and propagates `E` as an uncaught fault of the
surrounding execution context, while with an "error" observer registered the
observer receives exactly `E` once (the event log gains exactly one "error"
event and no fault is recorded). -/
theorem end_awaitable_chains (s : DR) (pid : Nat) (d : DataArg) (g : Nat) :
    (endF s (.thenable pid) d = ({ s with subs := pid :: s.subs }, .chained pid)) ∧
    (pid ∈ s.subs →
      stepF s (.promiseFulfilled pid d)
        = (endF { s with subs := s.subs.erase pid } .noErr d).1) ∧
    (pid ∈ s.subs → s.ended = false → s.ls.errorL = 0 → s.hasNext = false →
      stepF s (.promiseRejected pid (.errObj false g))
        = { finMark { s with subs := s.subs.erase pid } with
              faults := s.faults ++ [ErrArg.errObj false g] }) ∧
    (pid ∈ s.subs → s.ended = false → 0 < s.ls.errorL →
      stepF s (.promiseRejected pid (.errObj false g))
        = { finMark { s with subs := s.subs.erase pid } with
              events := s.events ++ [Ev.errorEv (.errObj false g)] }) := by
  refine ⟨rfl, ?_, ?_, ?_⟩
  · intro hm
    show promiseFulfilledF s pid d = _
    unfold promiseFulfilledF
    rw [if_pos hm]
  · intro hm h0 he hn
    show promiseRejectedF s pid (.errObj false g) = _
    unfold promiseRejectedF
    rw [if_pos hm]
    have e1 := (endErrTiersAux { s with subs := s.subs.erase pid } false g .undef h0).2.2.2
      (by simp) he hn
    rw [e1]
    rfl
  · intro hm h0 he
    show promiseRejectedF s pid (.errObj false g) = _
    unfold promiseRejectedF
    rw [if_pos hm]
    have e1 := (endErrTiersAux { s with subs := s.subs.erase pid } false g .undef h0).2.1
      (by simp) he
    rw [e1]
    rfl

/-- A controller that was started and then handed a thenable via `end`. -/
def drPend : DR := (endF drStarted (.thenable 7) .undef).1

/-- Witness for `end_awaitable_chains` at a concrete input: rejection of the
subscribed promise with no "error" observer and no continuation records the
error as an uncaught fault. -/
theorem end_awaitable_chains_witness :
    (7 ∈ drPend.subs) ∧
    stepF drPend (.promiseRejected 7 (.errObj false 2))
      = { finMark { drPend with subs := drPend.subs.erase 7 } with
            faults := drPend.faults ++ [ErrArg.errObj false 2] } := by
  refine ⟨by decide, ?_⟩
  exact (end_awaitable_chains drPend 7 .undef 2).2.2.1 (by decide) rfl rfl rfl

lemma resWrite_status (r : Res) (c : Chunk) : (resWrite r c).statusCode = r.statusCode := by
  unfold resWrite
  split <;> rfl

lemma resEndF_status (r : Res) (c : Option Chunk) : (resEndF r c).statusCode = r.statusCode := by
  unfold resEndF
  split
  · rfl
  · split <;> rfl

lemma waitF_res (s : DR) (tmo : Option Nat) : (waitF s tmo).1.res = s.res := by
  unfold waitF
  split
  · rfl
  · split
    · split <;> rfl
    · rfl

lemma heartbeatF_status (s : DR) : (heartbeatF s).res.statusCode = s.res.statusCode := by
  simp only [heartbeatF]
  split
  · rfl
  · exact resWrite_status _ _

lemma abortF_status (s : DR) : (abortF s).res.statusCode = s.res.statusCode := by
  simp only [abortF, stopF]
  split
  · rfl
  · exact resEndF_status _ _

lemma streamDoneF_status (s : DR) : (streamDoneF s).res.statusCode = s.res.statusCode := by
  unfold streamDoneF
  cases hc : s.res.pipedFrom with
  | none => rfl
  | some k => exact resEndF_status _ _

lemma fireInitialDelayF_status (s : DR) :
    (fireInitialDelayF s).res.statusCode = s.res.statusCode := by
  unfold fireInitialDelayF
  cases hc : s.tInitialDelay with
  | none => rfl
  | some p =>
    obtain ⟨i, di⟩ := p
    rfl

lemma firePollF_status (s : DR) : (firePollF s).res.statusCode = s.res.statusCode := by
  unfold firePollF
  cases hc : s.tPoll with
  | none => rfl
  | some k => exact heartbeatF_status s

lemma promiseFulfilledF_status (s : DR) (pid : Nat) (d : DataArg) :
    (promiseFulfilledF s pid d).res.statusCode = s.res.statusCode := by
  unfold promiseFulfilledF
  split
  · exact ((endF_frame { s with subs := s.subs.erase pid } .noErr d).2.2.2.2.1).trans rfl
  · rfl

lemma promiseRejectedF_status (s : DR) (pid : Nat) (e : ErrArg) :
    (promiseRejectedF s pid e).res.statusCode = s.res.statusCode := by
  unfold promiseRejectedF
  split
  · have c5 := (recordFault_frame (endF { s with subs := s.subs.erase pid } e .undef)).2.2.2.2.1
    have b5 := (endF_frame { s with subs := s.subs.erase pid } e .undef).2.2.2.2.1
    exact ((congrArg Res.statusCode c5).trans b5).trans rfl
  · rfl

/-- C7: the status-code contract.  The constructor leaves the response status
untouched; `wait` never touches the response at all; `start` (on a
not-yet-started instance) sets 202 while writing no body byte; the
idle-timeout armed by `wait` sets 202 on firing, before finalization proceeds;
and no other trigger — user calls, heartbeat ticks, promise settlement, abort,
response finish, stream completion — ever changes the status code. -/
theorem status_code_contract :
    (∀ (hn : Bool) (l : Listeners) (r : Res), (construct hn l r).res.statusCode = r.statusCode) ∧
    (∀ (s : DR) (tmo : Option Nat), (waitF s tmo).1.res = s.res) ∧
    (∀ (s : DR) (i di tmo : Option Nat), s.started = false →
      (startF s i di tmo).1.res.statusCode = 202 ∧
      (startF s i di tmo).1.res.body = s.res.body) ∧
    (∀ s : DR, s.tTimeout = some .fromWait → (fireTimeoutF s).res.statusCode = 202) ∧
    (∀ (s : DR) (tr : Trigger), tr ≠ .fireTimeout → (∀ i di tmo, tr ≠ .uStart i di tmo) →
      (stepF s tr).res.statusCode = s.res.statusCode) := by
  refine ⟨fun hn l r => rfl, fun s tmo => waitF_res s tmo, ?_, ?_, ?_⟩
  · intro s i di tmo h
    have hs : ¬ s.started = true := by simp [h]
    cases tmo with
    | none => simp [startF, hs]
    | some t =>
      by_cases ht : t = 0
      · subst ht
        simp [startF, hs]
      · simp [startF, hs, ht]
  · intro s h
    unfold fireTimeoutF
    rw [h]
    have c5 := (recordFault_frame (endF
      { s with tTimeout := none, res := { s.res with statusCode := 202 } }
      (.errObj true 0) .undef)).2.2.2.2.1
    have b5 := (endF_frame
      { s with tTimeout := none, res := { s.res with statusCode := 202 } }
      (.errObj true 0) .undef).2.2.2.2.1
    exact ((congrArg Res.statusCode c5).trans b5).trans rfl
  · intro s tr h1 h2
    cases tr with
    | uWait tmo => exact congrArg Res.statusCode (waitF_res s tmo)
    | uStart i di tmo => exact absurd rfl (h2 i di tmo)
    | uStop => rfl
    | uEnd e d => exact (endF_frame s e d).2.2.2.2.1
    | uJson => rfl
    | fireTimeout => exact absurd rfl h1
    | fireInitialDelay => exact fireInitialDelayF_status s
    | firePoll => exact firePollF_status s
    | promiseFulfilled pid d => exact promiseFulfilledF_status s pid d
    | promiseRejected pid e => exact promiseRejectedF_status s pid e
    | reqClose => exact abortF_status s
    | resFinish => rfl
    | streamDone => exact streamDoneF_status s

/-- Witness for `status_code_contract` at a concrete input: a fresh controller
keeps status 200 through construction and `wait`, and `start()` sets 202. -/
theorem status_code_contract_witness :
    drBase.started = false ∧
    (waitF drBase (some 5)).1.res = drBase.res ∧
    (startF drBase none none none).1.res.statusCode = 202 := by
  refine ⟨rfl, status_code_contract.2.1 drBase (some 5), ?_⟩
  exact (status_code_contract.2.2.1 drBase none none none rfl).1

lemma end_default_render_eq (s : DR) (d : DataArg) (h0 : s.ended = false)
    (hd : s.ls.doneL = 0) :
    endF s .noErr d
      = ({ finMark s with
            res := match d with
              | .undef => resEndF (finMark s).res none
              | .readable sid => { (finMark s).res with pipedFrom := some sid }
              | .str t => resEndF (finMark s).res (some (.str t))
              | .buf b => resEndF (finMark s).res (some (.buf b))
              | .other v => resEndF (finMark s).res (some (.str (ovalStringify v))) },
          .unit) := by
  show endCore s .noErr d = _
  unfold endCore
  rw [if_neg (show ¬ s.ended = true by simp [h0])]
  show renderData (finMark s) d = _
  unfold renderData
  rw [if_neg (show ¬ 0 < (finMark s).ls.doneL by simp [finMark, hd])]
  cases d <;> rfl

/-- C8: default rendering in `end` (no error, no "done" observer, response
not yet ended), decided by the shape of `data`: `undefined`/`null` ends the
response with no body; a readable stream is piped into the response and the
response is ended only by stream completion; a string or a buffer is written
as-is and the response ended; any other value is serialized with
`JSON.stringify`, written, and the response ended. -/
theorem end_default_rendering (s : DR) (h0 : s.ended = false) (hd : s.ls.doneL = 0)
    (hr : s.res.ended = false) :
    ((endF s .noErr .undef).1.res.body = s.res.body ∧
      (endF s .noErr .undef).1.res.ended = true) ∧
    (∀ sid, (endF s .noErr (.readable sid)).1.res.pipedFrom = some sid ∧
      (endF s .noErr (.readable sid)).1.res.ended = false ∧
      (stepF (endF s .noErr (.readable sid)).1 .streamDone).res.ended = true) ∧
    (∀ t, (endF s .noErr (.str t)).1.res.body = s.res.body ++ [Chunk.str t] ∧
      (endF s .noErr (.str t)).1.res.ended = true) ∧
    (∀ b, (endF s .noErr (.buf b)).1.res.body = s.res.body ++ [Chunk.buf b] ∧
      (endF s .noErr (.buf b)).1.res.ended = true) ∧
    (∀ v, (endF s .noErr (.other v)).1.res.body
        = s.res.body ++ [Chunk.str (ovalStringify v)] ∧
      (endF s .noErr (.other v)).1.res.ended = true) := by
  have hrne : ¬ (finMark s).res.ended = true := by simp [finMark, hr]
  refine ⟨?_, ?_, ?_, ?_, ?_⟩
  · rw [end_default_render_eq s .undef h0 hd]
    show (resEndF (finMark s).res none).body = s.res.body ∧
      (resEndF (finMark s).res none).ended = true
    unfold resEndF
    rw [if_neg hrne]
    exact ⟨rfl, rfl⟩
  · intro sid
    rw [end_default_render_eq s (.readable sid) h0 hd]
    refine ⟨rfl, hr, ?_⟩
    show (streamDoneF
      { finMark s with res := { (finMark s).res with pipedFrom := some sid } }).res.ended = true
    simp [streamDoneF, resEndF, finMark, hr]
  · intro t
    rw [end_default_render_eq s (.str t) h0 hd]
    show (resEndF (finMark s).res (some (.str t))).body = s.res.body ++ [Chunk.str t] ∧
      (resEndF (finMark s).res (some (.str t))).ended = true
    unfold resEndF
    rw [if_neg hrne]
    exact ⟨rfl, rfl⟩
  · intro b
    rw [end_default_render_eq s (.buf b) h0 hd]
    show (resEndF (finMark s).res (some (.buf b))).body = s.res.body ++ [Chunk.buf b] ∧
      (resEndF (finMark s).res (some (.buf b))).ended = true
    unfold resEndF
    rw [if_neg hrne]
    exact ⟨rfl, rfl⟩
  · intro v
    rw [end_default_render_eq s (.other v) h0 hd]
    show (resEndF (finMark s).res (some (.str (ovalStringify v)))).body
        = s.res.body ++ [Chunk.str (ovalStringify v)] ∧
      (resEndF (finMark s).res (some (.str (ovalStringify v)))).ended = true
    unfold resEndF
    rw [if_neg hrne]
    exact ⟨rfl, rfl⟩

/-- Witness for `end_default_rendering` at a concrete input: ending a started
controller with the string "results" writes it as-is and ends the response. -/
theorem end_default_rendering_witness :
    drStarted.ended = false ∧ drStarted.ls.doneL = 0 ∧ drStarted.res.ended = false ∧
    (endF drStarted .noErr (.str "results")).1.res.body = [Chunk.str "results"] ∧
    (endF drStarted .noErr (.str "results")).1.res.ended = true := by
  refine ⟨rfl, rfl, rfl, ?_, ?_⟩
  · exact ((end_default_rendering drStarted rfl rfl rfl).2.2.1 "results").1
  · exact ((end_default_rendering drStarted rfl rfl rfl).2.2.1 "results").2

lemma endF_noDelay (s : DR) (e : ErrArg) (d : DataArg) (h0 : s.ended = false)
    (h1 : plainArg e = true) : (endF s e d).1.res.noDelay = false := by
  have hne : ¬ s.ended = true := by simp [h0]
  cases e <;> simp [plainArg] at h1
  case noErr =>
    show (endCore s .noErr d).1.res.noDelay = false
    unfold endCore
    rw [if_neg hne]
    exact ((renderData_frame (finMark s) d).2.2.2.2.2.2.1).trans rfl
  case errObj t g =>
    show (endCore s (.errObj t g) d).1.res.noDelay = false
    unfold endCore
    rw [if_neg hne]
    exact (congrArg Res.noDelay
      ((handleErr_frame (finMark s) (.errObj t g)).2.2.2.2.2.1)).trans rfl
  case thenNotCallable g =>
    show (endCore s (.thenNotCallable g) d).1.res.noDelay = false
    unfold endCore
    rw [if_neg hne]
    exact (congrArg Res.noDelay
      ((handleErr_frame (finMark s) (.thenNotCallable g)).2.2.2.2.2.1)).trans rfl

/-- C3 counterexample: `end` does not cancel timers in this revision.  A
controller started with `start()` (initial-delay timer armed, no listeners,
no continuation) is finalized by `end(err)`; after the call the initial-delay
slot is still armed, and letting the armed timers fire afterwards dispatches
"poll" and writes a heartbeat byte into the response — after finalization,
with no observer having taken ownership. -/
theorem end_cancels_timers_cex :
    ((endF drStarted (.errObj false 1) .undef).1.tInitialDelay = some (100, 100)) ∧
    some (100, 100) ≠ (none : Option (Nat × Nat)) ∧
    pollCount (run (endF drStarted (.errObj false 1) .undef).1
        [Trigger.fireInitialDelay, Trigger.firePoll]).events = 1 ∧
    (run (endF drStarted (.errObj false 1) .undef).1
        [Trigger.fireInitialDelay, Trigger.firePoll]).res.body = [Chunk.str " "] ∧
    drStarted.ls = {} ∧ drStarted.hasNext = false := by
  exact ⟨rfl, by decide, rfl, rfl, rfl, rfl⟩

/-- C3 (amended): on first finalization `end` restores write buffering
(`setNoDelay(false)`) but does not itself cancel any timer — all three slots
are left exactly as they were.  Timer cancellation happens through `stop`,
which the constructor wires to the response close/finish notifications; in
the default rendering path (started instance, no error, no "done" observer)
`end` ends the response, and once the response finish notification is
processed, no heartbeat or poll dispatch ever occurs afterwards. -/
theorem end_restores_buffering_not_timers (s : DR) (e : ErrArg) (d : DataArg)
    (h0 : s.ended = false) (h1 : plainArg e = true) :
    (endF s e d).1.res.noDelay = false ∧
    (endF s e d).1.tTimeout = s.tTimeout ∧
    (endF s e d).1.tInitialDelay = s.tInitialDelay ∧
    (endF s e d).1.tPoll = s.tPoll ∧
    (s.started = true → s.ls.doneL = 0 → s.res.ended = false → e = .noErr → d = .undef →
      (endF s e d).1.res.ended = true ∧
      ∀ ts : List Trigger,
        pollCount (run (stepF (endF s e d).1 .resFinish) ts).events
          = pollCount (stepF (endF s e d).1 .resFinish).events) := by
  obtain ⟨b1, b2, b3, b4, b5, b6⟩ := endF_frame s e d
  refine ⟨endF_noDelay s e d h0 h1, b2, b3, b4, ?_⟩
  intro hst hd hr he hdd
  subst he
  subst hdd
  constructor
  · rw [end_default_render_eq s .undef h0 hd]
    show (resEndF (finMark s).res none).ended = true
    unfold resEndF
    rw [if_neg (show ¬ (finMark s).res.ended = true by simp [finMark, hr])]
  · intro ts
    exact (quiesced_run (stepF (endF s .noErr .undef).1 .resFinish) ts
      ⟨(endF_frame s .noErr .undef).1.trans hst, rfl, rfl⟩).2

/-- Witness for `end_restores_buffering_not_timers` at a concrete input. -/
theorem end_restores_buffering_not_timers_witness :
    drStarted.ended = false ∧ plainArg (.errObj false 1) = true ∧
    (endF drStarted (.errObj false 1) .undef).1.res.noDelay = false := by
  refine ⟨rfl, rfl, ?_⟩
  exact (end_restores_buffering_not_timers drStarted (.errObj false 1) .undef rfl rfl).1

/-- C9: the abort path (request close notification).  It calls `stop`
unconditionally — after it, all three timer slots are clear; if an "abort"
observer is registered it dispatches "abort" and changes nothing else (in
particular the response is untouched); otherwise it ends the response
immediately with no additional body and dispatches nothing. -/
theorem abort_path (s : DR) :
    stepF s .reqClose = abortF s ∧
    (abortF s).tTimeout = none ∧ (abortF s).tInitialDelay = none ∧
    (abortF s).tPoll = none ∧
    (0 < s.ls.abortL → abortF s = { stopF s with events := s.events ++ [Ev.abortEv] }) ∧
    (s.ls.abortL = 0 → s.res.ended = false →
      (abortF s).res.body = s.res.body ∧ (abortF s).res.ended = true ∧
      (abortF s).events = s.events) := by
  refine ⟨rfl, ?_, ?_, ?_, ?_, ?_⟩
  · simp only [abortF, stopF]
    split <;> rfl
  · simp only [abortF, stopF]
    split <;> rfl
  · simp only [abortF, stopF]
    split <;> rfl
  · intro h
    simp [abortF, stopF, h]
  · intro h hr
    simp [abortF, stopF, h, resEndF, hr]

/-- Witness for `abort_path` at a concrete input: an abort on a started
controller with no "abort" observer ends the response with an empty body. -/
theorem abort_path_witness :
    drStarted.ls.abortL = 0 ∧ drStarted.res.ended = false ∧
    (abortF drStarted).res.ended = true ∧ (abortF drStarted).res.body = [] := by
  refine ⟨rfl, rfl, ?_, ?_⟩
  · exact ((abort_path drStarted).2.2.2.2.2 rfl rfl).2.1
  · exact ((abort_path drStarted).2.2.2.2.2 rfl rfl).1
